import Mathlib

/-!
Shallow embedding of the YouTube-thumbnail-editor session core
(source: the React component `App` and its handlers `handleInitialImageUpload`,
`handleContextImageSelect`, `handleEdit`, `handleUndo`, `handleRedo`, plus the
context-image discard button's onClick).

Modelling conventions:
- React `useState` fields become fields of `AppState`.
- `historyIndex` is a JS number that starts at `-1`; it is modelled as `Int`.
- Message ids (`user-Date.now()` / `bot-Date.now()`) and object-URL values
  (`URL.createObjectURL`) are modelled as fresh naturals drawn from a counter
  `nextId`; `allocated` / `released` record every `createObjectURL` /
  `revokeObjectURL` call, so resource-lifecycle claims are statable.
- The async `handleEdit` has one suspension region (reading the context file
  and awaiting `editImage`).  It is split into the synchronous prefix
  `handleEditStart` (guards, optimistic user entry, issuing the call, with the
  closure-captured state recorded in an `InFlightInfo`) and the continuation
  `handleEditSettle` (the `then`/`catch` plus the `finally` block), which runs
  against the state current at completion time, exactly as the source's mix of
  functional updates (`setChatHistory(prev => ...)`) and closure-captured
  values (`historyStack`, `historyIndex`, `contextImage`) dictates.
- `inFlight` lists the outstanding `editImage` promises with their captures.
- Blank prompts: JS `!prompt.trim()` is true exactly when the prompt consists
  of whitespace only; modelled by `isBlank`.
-/

namespace ThumbEdit

/-- ImageState from the source: `{ imageUrl: string, mimeType: string }`. -/
structure ImageState where
  imageUrl : String
  mimeType : String
  deriving DecidableEq, Repr

/-- Discriminator of `ChatMessage.type`: `'user' | 'bot'`. -/
inductive MsgType where
  | user
  | bot
  deriving DecidableEq, Repr

/-- ChatMessage from `types.ts`; optional fields are `Option`s, and the
context-image object URL is modelled by its resource id. -/
structure ChatMessage where
  id : Nat
  type : MsgType
  prompt : Option String
  imageUrl : Option String
  mimeType : Option String
  contextImageUrl : Option Nat
  deriving DecidableEq, Repr

/-- Pending context image: `{ file, url, mimeType }`; `res` models the object
URL returned by `URL.createObjectURL(file)` (the external-backed resource). -/
structure PendingCtx where
  res : Nat
  mimeType : String
  deriving DecidableEq, Repr

/-- Result of the external `editImage` call: `{ newBase64, newMimeType }`. -/
structure EditResult where
  newBase64 : String
  newMimeType : String
  deriving DecidableEq, Repr

/-- Closure state captured by `handleEdit` when it issues the external call:
the optimistic user message's id and the render-time values of
`historyStack`, `historyIndex` and `contextImage` that the continuation uses. -/
structure InFlightInfo where
  userMsgId : Nat
  capturedStack : List ImageState
  capturedIndex : Int
  capturedContext : Option PendingCtx
  deriving DecidableEq, Repr

/-- Session state: the component's `useState` fields plus the runtime ghosts
(`nextId` fresh-id counter, `inFlight` outstanding calls, `allocated` /
`released` object-URL lifecycle records). -/
structure AppState where
  chatHistory : List ChatMessage
  historyStack : List ImageState
  historyIndex : Int
  contextImage : Option PendingCtx
  prompt : String
  isLoading : Bool
  error : Option String
  nextId : Nat
  inFlight : List InFlightInfo
  allocated : List Nat
  released : List Nat
  deriving DecidableEq, Repr

/-- JS `!s.trim()`: true exactly when `s` is whitespace only. -/
def isBlank (s : String) : Bool := s.toList.all Char.isWhitespace

/-- JS indexing `historyStack[historyIndex]`: `undefined` (`none`) when the
index is negative or past the end. -/
def getAt (stack : List ImageState) (idx : Int) : Option ImageState :=
  if idx < 0 then none else stack[idx.toNat]?

/-- Source `const currentImage = historyStack[historyIndex]` (also the active
version shown by the viewer and used by `downloadImage`). -/
def currentImage (s : AppState) : Option ImageState :=
  getAt s.historyStack s.historyIndex

/-- Source line `const canUndo = historyIndex > 0`. -/
def canUndo (idx : Int) : Bool := idx > 0

/-- Source line `const canRedo = historyIndex < historyStack.length - 1`. -/
def canRedo (idx : Int) (len : Nat) : Bool := idx < (len : Int) - 1

/-- Source `handleUndo`: decrement `historyIndex` when it is positive. -/
def handleUndo (s : AppState) : AppState :=
  if s.historyIndex > 0 then { s with historyIndex := s.historyIndex - 1 } else s

/-- Source `handleRedo`: increment `historyIndex` when it is below the last
index of `historyStack`. -/
def handleRedo (s : AppState) : AppState :=
  if s.historyIndex < (s.historyStack.length : Int) - 1 then
    { s with historyIndex := s.historyIndex + 1 }
  else s

/-- Source lines 130-133 of `handleEdit` (the history commit):
`newHistoryStack = historyStack.slice(0, historyIndex + 1)`, append the new
image state, `setHistoryIndex(newHistoryStack.length)`.  Returns the new
`(historyStack, historyIndex)` pair. -/
def commitEdit (stack : List ImageState) (idx : Int) (v : ImageState) :
    List ImageState × Int :=
  let newHistoryStack := stack.take (idx + 1).toNat
  (newHistoryStack ++ [v], (newHistoryStack.length : Int))

/-- Source `handleInitialImageUpload`, with the file's image-ness, MIME type
and the `fileToDataUrl` outcome (`none` = read failure) as inputs.  A valid
image resets the history to a single version at cursor 0, replaces the chat
with one bot entry showing the image, clears the prompt and the pending
context (without revoking its URL), and clears the error. -/
def handleInitialImageUpload (s : AppState) (isImage : Bool) (mt : String)
    (readResult : Option String) : AppState :=
  if !isImage then { s with error := some "Please upload a valid image file." }
  else
    match readResult with
    | none => { s with error := some "Failed to read the uploaded file.", isLoading := false }
    | some dataUrl =>
        { s with
          historyStack := [⟨dataUrl, mt⟩]
          historyIndex := 0
          chatHistory := [⟨s.nextId, .bot, none, some dataUrl, some mt, none⟩]
          prompt := ""
          contextImage := none
          error := none
          isLoading := false
          nextId := s.nextId + 1 }

/-- Source `handleContextImageSelect`: a non-image file only surfaces an
error; otherwise a fresh object URL is created (`allocated` grows) and the
pending context is replaced (the previous context's URL, if any, is dropped
without being revoked). -/
def handleContextImageSelect (s : AppState) (isImage : Bool) (mt : String) : AppState :=
  if !isImage then
    { s with error := some "Please upload a valid image file for context." }
  else
    { s with
      contextImage := some ⟨s.nextId, mt⟩
      allocated := s.allocated ++ [s.nextId]
      nextId := s.nextId + 1 }

/-- Source discard button onClick: `if (contextImage) URL.revokeObjectURL(...)`
then `setContextImage(null)`. -/
def discardContext (s : AppState) : AppState :=
  { s with
    released := s.released ++ (match s.contextImage with
      | some c => [c.res]
      | none => [])
    contextImage := none }

/-- Synchronous prefix of `handleEdit`: the guard
`if (!currentImage || !prompt.trim())` surfaces an error and stops; then
`if (isLoading) return`; otherwise set loading, clear the error, append the
optimistic user message (carrying the prompt and the pending context's URL),
and issue the external call with the closure-captured state. -/
def handleEditStart (s : AppState) : AppState :=
  if (currentImage s).isNone || isBlank s.prompt then
    { s with error := some "Cannot edit without a base image and a prompt." }
  else if s.isLoading then s
  else
    { s with
      isLoading := true
      error := none
      chatHistory := s.chatHistory ++
        [(⟨s.nextId, .user, some s.prompt, none, none,
            s.contextImage.map PendingCtx.res⟩ : ChatMessage)]
      nextId := s.nextId + 1
      inFlight := s.inFlight ++
        [(⟨s.nextId, s.historyStack, s.historyIndex, s.contextImage⟩ : InFlightInfo)] }

/-- Continuation of `handleEdit` once the external call settles.  On success
(`Except.ok`) the new data URL is assembled, the history commit runs on the
closure-captured stack and index, and the bot message is appended to the
current chat.  On failure (`Except.error`) the error is surfaced and the
optimistic user message is filtered out of the current chat.  The `finally`
block then stops loading, clears the prompt, revokes the closure-captured
context's URL if there was one, and clears the pending context. -/
def handleEditSettle (s : AppState) (info : InFlightInfo)
    (r : Except String EditResult) : AppState :=
  let afterTry :=
    match r with
    | .ok res =>
        let newImageUrl := "data:" ++ res.newMimeType ++ ";base64," ++ res.newBase64
        let committed := commitEdit info.capturedStack info.capturedIndex
          ⟨newImageUrl, res.newMimeType⟩
        { s with
          historyStack := committed.1
          historyIndex := committed.2
          chatHistory := s.chatHistory ++
            [(⟨s.nextId, .bot, none, some newImageUrl, some res.newMimeType, none⟩ : ChatMessage)]
          nextId := s.nextId + 1 }
    | .error msg =>
        { s with
          error := some msg
          chatHistory := s.chatHistory.filter (fun m => m.id != info.userMsgId) }
  { afterTry with
    isLoading := false
    prompt := ""
    released := afterTry.released ++ (match info.capturedContext with
      | some c => [c.res]
      | none => [])
    contextImage := none }

/-- User-visible events driving the session.  `upload` and `attach` carry the
chosen file's image-ness, MIME type and (for upload) the read outcome;
`settle` carries which outstanding call completes and its result. -/
inductive Ev where
  | upload (isImage : Bool) (mt : String) (readResult : Option String)
  | attach (isImage : Bool) (mt : String)
  | discard
  | putPrompt (p : String)
  | undo
  | redo
  | submit
  | settle (i : Nat) (r : Except String EditResult)
  deriving Repr

/-- One step of the session.  The attach control is disabled in the UI when
`historyStack.length === 0 || isLoading`, so the event is a no-op then; the
upload, undo, redo, discard and submit handlers carry their own guards. -/
def step (s : AppState) (e : Ev) : AppState :=
  match e with
  | .upload isImage mt readResult => handleInitialImageUpload s isImage mt readResult
  | .attach isImage mt =>
      if s.historyStack.length == 0 || s.isLoading then s
      else handleContextImageSelect s isImage mt
  | .discard => discardContext s
  | .putPrompt p => { s with prompt := p }
  | .undo => handleUndo s
  | .redo => handleRedo s
  | .submit => handleEditStart s
  | .settle i r =>
      match s.inFlight[i]? with
      | some info => handleEditSettle { s with inFlight := s.inFlight.eraseIdx i } info r
      | none => s

/-- Fresh session: empty chat, empty history, `historyIndex = -1`, no context,
empty prompt, not loading, no error. -/
def initState : AppState :=
  ⟨[], [], -1, none, "", false, none, 0, [], [], []⟩

/-- States reachable from the fresh session by any event sequence. -/
inductive Reachable : AppState → Prop where
  | init : Reachable initState
  | next : ∀ {s : AppState} (e : Ev), Reachable s → Reachable (step s e)

/-- Indexing an empty stack yields `undefined`. -/
theorem getAt_nil (idx : Int) : getAt [] idx = none := by
  unfold getAt
  split <;> simp

/-- When indexing succeeds the index is in bounds. -/
theorem getAt_isSome_bounds (stack : List ImageState) (idx : Int)
    (h : (getAt stack idx).isNone = false) :
    0 ≤ idx ∧ idx.toNat < stack.length := by
  unfold getAt at h
  split at h
  · simp at h
  · rename_i hneg
    cases hh : stack[idx.toNat]? with
    | none => rw [hh] at h; simp at h
    | some a => exact ⟨by omega, (List.getElem?_eq_some.mp hh).1⟩

/-- Sample image versions used by concrete instances. -/
def imgA : ImageState := ⟨"imgA", "image/png"⟩

def imgB : ImageState := ⟨"imgB", "image/png"⟩

def imgC : ImageState := ⟨"imgC", "image/png"⟩

def imgD : ImageState := ⟨"imgD", "image/png"⟩

/-- C1: with non-empty `versions` and any cursor reachable by undo
(`0 ≤ c < length versions`), `commitEdit v` truncates the stack to the prefix
`[0 .. c]` inclusive, appends `v`, and sets the cursor to the new last index
(`c + 1`); in particular from `[A,B,C]` at cursor 2, undo then `commitEdit D`
yields `[A,B,D]` at cursor 2, `canRedo` is then false and redo is a no-op. -/
theorem claim1 (stack : List ImageState) (c : Int) (v : ImageState)
    (_hne : stack ≠ []) (h0 : 0 ≤ c) (hlt : c < (stack.length : Int)) :
    ((commitEdit stack c v).1 = stack.take (c.toNat + 1) ++ [v]
      ∧ (commitEdit stack c v).2 = c + 1
      ∧ (commitEdit stack c v).2 = ((commitEdit stack c v).1.length : Int) - 1)
    ∧ (step { initState with historyStack := [imgA, imgB, imgC], historyIndex := 2 }
          .undo).historyIndex = 1
    ∧ commitEdit [imgA, imgB, imgC] 1 imgD = ([imgA, imgB, imgD], 2)
    ∧ canRedo 2 [imgA, imgB, imgD].length = false
    ∧ step { initState with historyStack := [imgA, imgB, imgD], historyIndex := 2 } .redo
        = { initState with historyStack := [imgA, imgB, imgD], historyIndex := 2 } := by
  have hte : (c + 1).toNat = c.toNat + 1 := by omega
  have hlen : (stack.take (c + 1).toNat).length = c.toNat + 1 := by
    simp only [List.length_take]
    omega
  have h1 : (commitEdit stack c v).1 = stack.take (c + 1).toNat ++ [v] := rfl
  have h2 : (commitEdit stack c v).2 = ((stack.take (c + 1).toNat).length : Int) := rfl
  refine ⟨⟨?_, ?_, ?_⟩, by decide, by decide, by decide, by decide⟩
  · rw [h1, hte]
  · rw [h2, hlen]
    omega
  · rw [h2, h1, hlen]
    simp only [List.length_append, List.length_singleton, hlen]
    omega

/-- Witness for C1 at the concrete input `[A,B,C]`, cursor 1, new version D. -/
theorem claim1_witness :
    (((commitEdit [imgA, imgB, imgC] 1 imgD).1 = [imgA, imgB, imgC].take 2 ++ [imgD]
      ∧ (commitEdit [imgA, imgB, imgC] 1 imgD).2 = 2
      ∧ (commitEdit [imgA, imgB, imgC] 1 imgD).2 =
          (((commitEdit [imgA, imgB, imgC] 1 imgD).1.length : Int)) - 1)
    ∧ (step { initState with historyStack := [imgA, imgB, imgC], historyIndex := 2 }
          .undo).historyIndex = 1
    ∧ commitEdit [imgA, imgB, imgC] 1 imgD = ([imgA, imgB, imgD], 2)
    ∧ canRedo 2 [imgA, imgB, imgD].length = false
    ∧ step { initState with historyStack := [imgA, imgB, imgD], historyIndex := 2 } .redo
        = { initState with historyStack := [imgA, imgB, imgD], historyIndex := 2 }) :=
  claim1 [imgA, imgB, imgC] 1 imgD (by decide) (by decide) (by decide)

/-- Every chat message carries an id below the fresh-id counter, so a newly
drawn id never collides with an existing entry. -/
theorem chat_ids_lt {s : AppState} (h : Reachable s) :
    ∀ m ∈ s.chatHistory, m.id < s.nextId := by
  induction h with
  | init =>
      intro m hm
      simp [initState] at hm
  | next e hr ih =>
      rename_i s
      cases e with
      | upload isImage mt readResult =>
          cases isImage with
          | false => exact fun m hm => ih m hm
          | true =>
              cases readResult with
              | none => exact fun m hm => ih m hm
              | some u =>
                  intro m hm
                  have hm' : m ∈ [(⟨s.nextId, .bot, none, some u, some mt, none⟩ :
                      ChatMessage)] := hm
                  have : m = ⟨s.nextId, .bot, none, some u, some mt, none⟩ := by
                    simpa using hm'
                  subst this
                  exact Nat.lt_succ_self _
      | attach isImage mt =>
          intro m hm
          by_cases hg : (s.historyStack.length == 0 || s.isLoading) = true
          · have hs : step s (.attach isImage mt) = s := by simp [step, hg]
            rw [hs] at hm ⊢
            exact ih m hm
          · have hs : step s (.attach isImage mt) = handleContextImageSelect s isImage mt := by
              simp [step, hg]
            rw [hs] at hm ⊢
            cases isImage with
            | false => exact ih m hm
            | true => exact Nat.lt_trans (ih m hm) (Nat.lt_succ_self _)
      | discard => exact fun m hm => ih m hm
      | putPrompt p => exact fun m hm => ih m hm
      | undo =>
          intro m hm
          by_cases hg : s.historyIndex > 0
          · have hs : step s .undo = { s with historyIndex := s.historyIndex - 1 } := by
              simp [step, handleUndo, hg]
            rw [hs] at hm ⊢
            exact ih m hm
          · have hs : step s .undo = s := by simp [step, handleUndo, hg]
            rw [hs] at hm ⊢
            exact ih m hm
      | redo =>
          intro m hm
          by_cases hg : s.historyIndex < (s.historyStack.length : Int) - 1
          · have hs : step s .redo = { s with historyIndex := s.historyIndex + 1 } := by
              simp [step, handleRedo, hg]
            rw [hs] at hm ⊢
            exact ih m hm
          · have hs : step s .redo = s := by simp [step, handleRedo, hg]
            rw [hs] at hm ⊢
            exact ih m hm
      | submit =>
          intro m hm
          by_cases h1 : ((currentImage s).isNone || isBlank s.prompt) = true
          · have hs : step s .submit =
                { s with error := some "Cannot edit without a base image and a prompt." } := by
              simp [step, handleEditStart, h1]
            rw [hs] at hm ⊢
            exact ih m hm
          · by_cases h2 : s.isLoading = true
            · have hs : step s .submit = s := by simp [step, handleEditStart, h1, h2]
              rw [hs] at hm ⊢
              exact ih m hm
            · have hs : step s .submit =
                  { s with
                    isLoading := true
                    error := none
                    chatHistory := s.chatHistory ++
                      [(⟨s.nextId, .user, some s.prompt, none, none,
                          s.contextImage.map PendingCtx.res⟩ : ChatMessage)]
                    nextId := s.nextId + 1
                    inFlight := s.inFlight ++
                      [(⟨s.nextId, s.historyStack, s.historyIndex, s.contextImage⟩ :
                          InFlightInfo)] } := by
                simp [step, handleEditStart, h1, h2]
              rw [hs] at hm ⊢
              rcases List.mem_append.mp hm with hin | hnew
              · exact Nat.lt_trans (ih m hin) (Nat.lt_succ_self _)
              · have hmeq : m = ⟨s.nextId, .user, some s.prompt, none, none,
                    s.contextImage.map PendingCtx.res⟩ := by simpa using hnew
                subst hmeq
                exact Nat.lt_succ_self _
      | settle i r =>
          intro m hm
          cases hq : s.inFlight[i]? with
          | none =>
              have hs : step s (.settle i r) = s := by simp [step, hq]
              rw [hs] at hm ⊢
              exact ih m hm
          | some info =>
              have hs : step s (.settle i r) =
                  handleEditSettle { s with inFlight := s.inFlight.eraseIdx i } info r := by
                simp [step, hq]
              rw [hs] at hm ⊢
              cases r with
              | ok res =>
                  have hm' : m ∈ s.chatHistory ++
                      [(⟨s.nextId, .bot, none,
                          some ("data:" ++ res.newMimeType ++ ";base64," ++ res.newBase64),
                          some res.newMimeType, none⟩ : ChatMessage)] := hm
                  rcases List.mem_append.mp hm' with hin | hnew
                  · exact Nat.lt_trans (ih m hin) (Nat.lt_succ_self _)
                  · have hmeq : m = ⟨s.nextId, .bot, none,
                        some ("data:" ++ res.newMimeType ++ ";base64," ++ res.newBase64),
                        some res.newMimeType, none⟩ := by simpa using hnew
                    subst hmeq
                    exact Nat.lt_succ_self _
              | error msg =>
                  have hm' : m ∈ s.chatHistory.filter (fun x => x.id != info.userMsgId) := hm
                  exact ih m (List.mem_of_mem_filter hm')

/-- Sample reachable states used by the witnesses: a freshly uploaded base
image, then a typed prompt. -/
def demoBase : AppState := step initState (.upload true "image/png" (some "baseA"))

def demoPrompted : AppState := step demoBase (.putPrompt "make it blue")

/-- C7: uploading a new valid base image resets the session regardless of the
prior state: the version stack becomes the single uploaded version, the cursor
becomes 0, and the whole chat is replaced by one bot entry showing it. -/
theorem claim7 (s : AppState) (mt dataUrl : String) :
    (step s (.upload true mt (some dataUrl))).historyStack = [⟨dataUrl, mt⟩]
    ∧ (step s (.upload true mt (some dataUrl))).historyIndex = 0
    ∧ (step s (.upload true mt (some dataUrl))).chatHistory
        = [⟨s.nextId, .bot, none, some dataUrl, some mt, none⟩] := by
  refine ⟨rfl, rfl, rfl⟩

/-- C10: after a successful base-image upload the conversation log is not
empty: it is exactly one bot entry whose image is the uploaded base image, and
the pending context image is cleared. -/
theorem claim10 (s : AppState) (mt dataUrl : String) :
    (step s (.upload true mt (some dataUrl))).chatHistory
        = [⟨s.nextId, .bot, none, some dataUrl, some mt, none⟩]
    ∧ (step s (.upload true mt (some dataUrl))).chatHistory ≠ []
    ∧ (step s (.upload true mt (some dataUrl))).contextImage = none := by
  have h : (step s (.upload true mt (some dataUrl))).chatHistory
      = [⟨s.nextId, .bot, none, some dataUrl, some mt, none⟩] := rfl
  refine ⟨h, ?_, rfl⟩
  rw [h]
  simp

/-- C2: when the external edit call of a submission fails, the edit history
(versions and cursor) is exactly what it was before the submission, and the
conversation log after the rollback equals the log before the submission: the
optimistic user entry (the unique entry with the captured fresh id) is removed
and every prior entry survives in order. -/
theorem claim2 (s : AppState) (msg : String) (hr : Reachable s)
    (hq : s.inFlight = [])
    (hcur : (currentImage s).isNone = false)
    (hp : isBlank s.prompt = false)
    (hl : s.isLoading = false) :
    (step (step s .submit) (.settle 0 (.error msg))).historyStack = s.historyStack
    ∧ (step (step s .submit) (.settle 0 (.error msg))).historyIndex = s.historyIndex
    ∧ (step (step s .submit) (.settle 0 (.error msg))).chatHistory = s.chatHistory := by
  have h1 : ¬(((currentImage s).isNone || isBlank s.prompt) = true) := by
    simp [hcur, hp]
  have h2 : ¬(s.isLoading = true) := by simp [hl]
  have hs1 : step s .submit =
      { s with
        isLoading := true
        error := none
        chatHistory := s.chatHistory ++
          [(⟨s.nextId, .user, some s.prompt, none, none,
              s.contextImage.map PendingCtx.res⟩ : ChatMessage)]
        nextId := s.nextId + 1
        inFlight := [(⟨s.nextId, s.historyStack, s.historyIndex, s.contextImage⟩ :
            InFlightInfo)] } := by
    simp [step, handleEditStart, h1, h2, hq]
  have hs2 : step (step s .submit) (.settle 0 (.error msg)) =
      { s with
        isLoading := false
        prompt := ""
        error := some msg
        chatHistory := (s.chatHistory ++
          [(⟨s.nextId, .user, some s.prompt, none, none,
              s.contextImage.map PendingCtx.res⟩ : ChatMessage)]).filter
            (fun m => m.id != s.nextId)
        contextImage := none
        nextId := s.nextId + 1
        inFlight := []
        released := s.released ++ (match s.contextImage with
          | some c => [c.res]
          | none => []) } := by
    rw [hs1]
    rfl
  have hchat : (s.chatHistory ++
      [(⟨s.nextId, .user, some s.prompt, none, none,
          s.contextImage.map PendingCtx.res⟩ : ChatMessage)]).filter
        (fun m => m.id != s.nextId) = s.chatHistory := by
    rw [List.filter_append]
    have hold : s.chatHistory.filter (fun m => m.id != s.nextId) = s.chatHistory :=
      List.filter_eq_self.mpr (fun m hm => by
        have hlt := chat_ids_lt hr m hm
        simp only [bne_iff_ne, ne_eq]
        omega)
    have hnew : ([(⟨s.nextId, .user, some s.prompt, none, none,
        s.contextImage.map PendingCtx.res⟩ : ChatMessage)]).filter
          (fun m => m.id != s.nextId) = [] := by
      simp
    rw [hold, hnew, List.append_nil]
  rw [hs2]
  exact ⟨rfl, rfl, hchat⟩

/-- Witness for C2: failed submission from a freshly uploaded base with a
typed prompt. -/
theorem claim2_witness :
    (step (step demoPrompted .submit) (.settle 0 (.error "boom"))).historyStack
        = demoPrompted.historyStack
    ∧ (step (step demoPrompted .submit) (.settle 0 (.error "boom"))).historyIndex
        = demoPrompted.historyIndex
    ∧ (step (step demoPrompted .submit) (.settle 0 (.error "boom"))).chatHistory
        = demoPrompted.chatHistory :=
  claim2 demoPrompted "boom"
    (Reachable.next (.putPrompt "make it blue") (Reachable.next _ Reachable.init))
    rfl (by decide) (by decide) rfl

/-- C3: a successful submission with the preconditions met appends exactly one
user entry carrying the submitted prompt and then one bot entry carrying the
new image version built from the response, and afterwards the current version
of the edit history is that new version. -/
theorem claim3 (s : AppState) (r : EditResult)
    (hq : s.inFlight = [])
    (hcur : (currentImage s).isNone = false)
    (hp : isBlank s.prompt = false)
    (hl : s.isLoading = false) :
    (step (step s .submit) (.settle 0 (.ok r))).chatHistory = s.chatHistory ++
      [(⟨s.nextId, .user, some s.prompt, none, none,
          s.contextImage.map PendingCtx.res⟩ : ChatMessage),
       (⟨s.nextId + 1, .bot, none,
          some ("data:" ++ r.newMimeType ++ ";base64," ++ r.newBase64),
          some r.newMimeType, none⟩ : ChatMessage)]
    ∧ currentImage (step (step s .submit) (.settle 0 (.ok r)))
        = some ⟨"data:" ++ r.newMimeType ++ ";base64," ++ r.newBase64, r.newMimeType⟩ := by
  have h1 : ¬(((currentImage s).isNone || isBlank s.prompt) = true) := by
    simp [hcur, hp]
  have h2 : ¬(s.isLoading = true) := by simp [hl]
  have hs1 : step s .submit =
      { s with
        isLoading := true
        error := none
        chatHistory := s.chatHistory ++
          [(⟨s.nextId, .user, some s.prompt, none, none,
              s.contextImage.map PendingCtx.res⟩ : ChatMessage)]
        nextId := s.nextId + 1
        inFlight := [(⟨s.nextId, s.historyStack, s.historyIndex, s.contextImage⟩ :
            InFlightInfo)] } := by
    simp [step, handleEditStart, h1, h2, hq]
  have hs2 : step (step s .submit) (.settle 0 (.ok r)) =
      { s with
        historyStack :=
          (commitEdit s.historyStack s.historyIndex
            ⟨"data:" ++ r.newMimeType ++ ";base64," ++ r.newBase64, r.newMimeType⟩).1
        historyIndex :=
          (commitEdit s.historyStack s.historyIndex
            ⟨"data:" ++ r.newMimeType ++ ";base64," ++ r.newBase64, r.newMimeType⟩).2
        chatHistory := (s.chatHistory ++
          [(⟨s.nextId, .user, some s.prompt, none, none,
              s.contextImage.map PendingCtx.res⟩ : ChatMessage)]) ++
          [(⟨s.nextId + 1, .bot, none,
              some ("data:" ++ r.newMimeType ++ ";base64," ++ r.newBase64),
              some r.newMimeType, none⟩ : ChatMessage)]
        nextId := s.nextId + 1 + 1
        isLoading := false
        prompt := ""
        error := none
        contextImage := none
        inFlight := []
        released := s.released ++ (match s.contextImage with
          | some c => [c.res]
          | none => []) } := by
    rw [hs1]
    rfl
  constructor
  · rw [hs2]
    simp
  · rw [hs2]
    have hcur2 : currentImage
        { s with
          historyStack :=
            (commitEdit s.historyStack s.historyIndex
              ⟨"data:" ++ r.newMimeType ++ ";base64," ++ r.newBase64, r.newMimeType⟩).1
          historyIndex :=
            (commitEdit s.historyStack s.historyIndex
              ⟨"data:" ++ r.newMimeType ++ ";base64," ++ r.newBase64, r.newMimeType⟩).2
          chatHistory := (s.chatHistory ++
            [(⟨s.nextId, .user, some s.prompt, none, none,
                s.contextImage.map PendingCtx.res⟩ : ChatMessage)]) ++
            [(⟨s.nextId + 1, .bot, none,
                some ("data:" ++ r.newMimeType ++ ";base64," ++ r.newBase64),
                some r.newMimeType, none⟩ : ChatMessage)]
          nextId := s.nextId + 1 + 1
          isLoading := false
          prompt := ""
          error := none
          contextImage := none
          inFlight := []
          released := s.released ++ (match s.contextImage with
            | some c => [c.res]
            | none => []) }
        = getAt
            ((s.historyStack.take (s.historyIndex + 1).toNat) ++
              [⟨"data:" ++ r.newMimeType ++ ";base64," ++ r.newBase64, r.newMimeType⟩])
            ((s.historyStack.take (s.historyIndex + 1).toNat).length : Int) := rfl
    rw [hcur2]
    unfold getAt
    have hnn : ¬(((s.historyStack.take (s.historyIndex + 1).toNat).length : Int) < 0) := by
      omega
    rw [if_neg hnn]
    rw [Int.toNat_natCast]
    exact List.getElem?_concat_length _ _

/-- Witness for C3: successful submission from a freshly uploaded base with a
typed prompt. -/
theorem claim3_witness :
    (step (step demoPrompted .submit)
        (.settle 0 (.ok ⟨"newB64", "image/png"⟩))).chatHistory
      = demoPrompted.chatHistory ++
        [(⟨demoPrompted.nextId, .user, some demoPrompted.prompt, none, none,
            demoPrompted.contextImage.map PendingCtx.res⟩ : ChatMessage),
         (⟨demoPrompted.nextId + 1, .bot, none,
            some ("data:" ++ "image/png" ++ ";base64," ++ "newB64"),
            some "image/png", none⟩ : ChatMessage)]
    ∧ currentImage (step (step demoPrompted .submit)
        (.settle 0 (.ok ⟨"newB64", "image/png"⟩)))
      = some ⟨"data:" ++ "image/png" ++ ";base64," ++ "newB64", "image/png"⟩ :=
  claim3 demoPrompted ⟨"newB64", "image/png"⟩ rfl (by decide) (by decide) rfl

/-- History well-formedness: an empty stack has cursor -1, a non-empty stack
has the cursor in bounds. -/
def HistInv (s : AppState) : Prop :=
  (s.historyStack = [] → s.historyIndex = -1)
  ∧ (s.historyStack ≠ [] → 0 ≤ s.historyIndex
      ∧ s.historyIndex < (s.historyStack.length : Int))

theorem histInv_init : HistInv initState :=
  ⟨fun _ => rfl, fun hh => absurd rfl hh⟩

theorem histInv_step {s : AppState} (h : HistInv s) (e : Ev) : HistInv (step s e) := by
  cases e with
  | upload isImage mt readResult =>
      cases isImage with
      | false => exact h
      | true =>
          cases readResult with
          | none => exact h
          | some u =>
              refine ⟨fun hh => ?_, fun _ => ⟨?_, ?_⟩⟩
              · exact absurd (show ([⟨u, mt⟩] : List ImageState) = [] from hh) (by simp)
              · show (0 : Int) ≤ 0
                omega
              · show (0 : Int) < (([⟨u, mt⟩] : List ImageState).length : Int)
                rw [List.length_singleton]
                omega
  | attach isImage mt =>
      by_cases hg : (s.historyStack.length == 0 || s.isLoading) = true
      · have hs : step s (.attach isImage mt) = s := by simp [step, hg]
        rw [hs]
        exact h
      · have hs : step s (.attach isImage mt) = handleContextImageSelect s isImage mt := by
          simp [step, hg]
        rw [hs]
        cases isImage with
        | false => exact h
        | true => exact h
  | discard => exact h
  | putPrompt p => exact h
  | undo =>
      by_cases hg : s.historyIndex > 0
      · have hs : step s .undo = { s with historyIndex := s.historyIndex - 1 } := by
          simp [step, handleUndo, hg]
        rw [hs]
        constructor
        · intro hh
          have hh' : s.historyStack = [] := hh
          exact absurd (h.1 hh') (by omega)
        · intro hh
          have hh' : s.historyStack ≠ [] := hh
          have hb := h.2 hh'
          constructor
          · show (0 : Int) ≤ s.historyIndex - 1
            omega
          · show s.historyIndex - 1 < (s.historyStack.length : Int)
            omega
      · have hs : step s .undo = s := by simp [step, handleUndo, hg]
        rw [hs]
        exact h
  | redo =>
      by_cases hg : s.historyIndex < (s.historyStack.length : Int) - 1
      · have hs : step s .redo = { s with historyIndex := s.historyIndex + 1 } := by
          simp [step, handleRedo, hg]
        rw [hs]
        constructor
        · intro hh
          have hh' : s.historyStack = [] := hh
          have h1 := h.1 hh'
          have hlen : s.historyStack.length = 0 := by rw [hh']; rfl
          show s.historyIndex + 1 = -1
          omega
        · intro hh
          have hh' : s.historyStack ≠ [] := hh
          have hb := h.2 hh'
          constructor
          · show (0 : Int) ≤ s.historyIndex + 1
            omega
          · show s.historyIndex + 1 < (s.historyStack.length : Int)
            omega
      · have hs : step s .redo = s := by simp [step, handleRedo, hg]
        rw [hs]
        exact h
  | submit =>
      by_cases h1 : ((currentImage s).isNone || isBlank s.prompt) = true
      · have hs : step s .submit =
            { s with error := some "Cannot edit without a base image and a prompt." } := by
          simp [step, handleEditStart, h1]
        rw [hs]
        exact h
      · by_cases h2 : s.isLoading = true
        · have hs : step s .submit = s := by simp [step, handleEditStart, h1, h2]
          rw [hs]
          exact h
        · have hs : step s .submit =
              { s with
                isLoading := true
                error := none
                chatHistory := s.chatHistory ++
                  [(⟨s.nextId, .user, some s.prompt, none, none,
                      s.contextImage.map PendingCtx.res⟩ : ChatMessage)]
                nextId := s.nextId + 1
                inFlight := s.inFlight ++
                  [(⟨s.nextId, s.historyStack, s.historyIndex, s.contextImage⟩ :
                      InFlightInfo)] } := by
            simp [step, handleEditStart, h1, h2]
          rw [hs]
          exact h
  | settle i r =>
      cases hq : s.inFlight[i]? with
      | none =>
          have hs : step s (.settle i r) = s := by simp [step, hq]
          rw [hs]
          exact h
      | some info =>
          have hs : step s (.settle i r) =
              handleEditSettle { s with inFlight := s.inFlight.eraseIdx i } info r := by
            simp [step, hq]
          rw [hs]
          cases r with
          | ok res =>
              refine ⟨fun hh => ?_, fun _ => ?_⟩
              · exact absurd (show (info.capturedStack.take (info.capturedIndex + 1).toNat) ++
                    [(⟨"data:" ++ res.newMimeType ++ ";base64," ++ res.newBase64,
                      res.newMimeType⟩ : ImageState)] = [] from hh) (by simp)
              · constructor
                · show (0 : Int) ≤
                    ((info.capturedStack.take (info.capturedIndex + 1).toNat).length : Int)
                  omega
                · show ((info.capturedStack.take (info.capturedIndex + 1).toNat).length : Int) <
                    ((((info.capturedStack.take (info.capturedIndex + 1).toNat) ++
                      [(⟨"data:" ++ res.newMimeType ++ ";base64," ++ res.newBase64,
                        res.newMimeType⟩ : ImageState)]).length : Nat) : Int)
                  rw [List.length_append, List.length_singleton]
                  push_cast
                  omega
          | error msg => exact h

/-- Once non-empty, the version stack never becomes empty again under any
event, so it is empty only before the first upload. -/
theorem stack_stays_nonempty {s : AppState} (h : s.historyStack ≠ []) (e : Ev) :
    (step s e).historyStack ≠ [] := by
  cases e with
  | upload isImage mt readResult =>
      cases isImage with
      | false => exact h
      | true =>
          cases readResult with
          | none => exact h
          | some u => simp [step, handleInitialImageUpload]
  | attach isImage mt =>
      by_cases hg : (s.historyStack.length == 0 || s.isLoading) = true
      · have hs : step s (.attach isImage mt) = s := by simp [step, hg]
        rw [hs]; exact h
      · have hs : step s (.attach isImage mt) = handleContextImageSelect s isImage mt := by
          simp [step, hg]
        rw [hs]
        cases isImage with
        | false => exact h
        | true => exact h
  | discard => exact h
  | putPrompt p => exact h
  | undo =>
      by_cases hg : s.historyIndex > 0
      · have hs : step s .undo = { s with historyIndex := s.historyIndex - 1 } := by
          simp [step, handleUndo, hg]
        rw [hs]; exact h
      · have hs : step s .undo = s := by simp [step, handleUndo, hg]
        rw [hs]; exact h
  | redo =>
      by_cases hg : s.historyIndex < (s.historyStack.length : Int) - 1
      · have hs : step s .redo = { s with historyIndex := s.historyIndex + 1 } := by
          simp [step, handleRedo, hg]
        rw [hs]; exact h
      · have hs : step s .redo = s := by simp [step, handleRedo, hg]
        rw [hs]; exact h
  | submit =>
      by_cases h1 : ((currentImage s).isNone || isBlank s.prompt) = true
      · have hs : step s .submit =
            { s with error := some "Cannot edit without a base image and a prompt." } := by
          simp [step, handleEditStart, h1]
        rw [hs]; exact h
      · by_cases h2 : s.isLoading = true
        · have hs : step s .submit = s := by simp [step, handleEditStart, h1, h2]
          rw [hs]; exact h
        · have hs : step s .submit =
              { s with
                isLoading := true
                error := none
                chatHistory := s.chatHistory ++
                  [(⟨s.nextId, .user, some s.prompt, none, none,
                      s.contextImage.map PendingCtx.res⟩ : ChatMessage)]
                nextId := s.nextId + 1
                inFlight := s.inFlight ++
                  [(⟨s.nextId, s.historyStack, s.historyIndex, s.contextImage⟩ :
                      InFlightInfo)] } := by
            simp [step, handleEditStart, h1, h2]
          rw [hs]; exact h
  | settle i r =>
      cases hq : s.inFlight[i]? with
      | none =>
          have hs : step s (.settle i r) = s := by simp [step, hq]
          rw [hs]; exact h
      | some info =>
          have hs : step s (.settle i r) =
              handleEditSettle { s with inFlight := s.inFlight.eraseIdx i } info r := by
            simp [step, hq]
          rw [hs]
          cases r with
          | ok res => simp [handleEditSettle, commitEdit]
          | error msg => exact h

/-- C5: in every reachable state, either the version stack is empty with the
pre-upload cursor -1, or the cursor satisfies `0 ≤ cursor < length(versions)`;
and once the stack is non-empty no event empties it again (it is empty only
before the first upload). -/
theorem claim5 (s : AppState) (h : Reachable s) :
    ((s.historyStack = [] ∧ s.historyIndex = -1)
      ∨ (0 ≤ s.historyIndex ∧ s.historyIndex < (s.historyStack.length : Int)))
    ∧ (s.historyStack ≠ [] → ∀ e : Ev, (step s e).historyStack ≠ []) := by
  have hinv : HistInv s := by
    induction h with
    | init => exact histInv_init
    | next e hr ih => exact histInv_step ih e
  constructor
  · by_cases hh : s.historyStack = []
    · exact Or.inl ⟨hh, hinv.1 hh⟩
    · exact Or.inr (hinv.2 hh)
  · exact fun hh e => stack_stays_nonempty hh e

/-- Witness for C5 at the reachable state holding one uploaded version. -/
theorem claim5_witness :
    ((demoBase.historyStack = [] ∧ demoBase.historyIndex = -1)
      ∨ (0 ≤ demoBase.historyIndex ∧ demoBase.historyIndex < (demoBase.historyStack.length : Int)))
    ∧ (step demoBase .undo).historyStack ≠ [] :=
  ⟨(claim5 demoBase (Reachable.next _ Reachable.init)).1,
   (claim5 demoBase (Reachable.next _ Reachable.init)).2 (by decide) .undo⟩

/-- Upload events, the one event whose handler resets `isLoading` while an
external call may still be outstanding. -/
def isUploadEv : Ev → Bool
  | .upload _ _ _ => true
  | _ => false

/-- States reachable when no base-image upload completes while an external
call is outstanding (the traces in which `isLoading` faithfully tracks the
outstanding call). -/
inductive ReachableSF : AppState → Prop where
  | init : ReachableSF initState
  | next : ∀ {s : AppState} (e : Ev), ReachableSF s →
      (isUploadEv e = true → s.inFlight = []) → ReachableSF (step s e)

/-- Single-flight invariant: at most one outstanding call, and none when the
loading flag is down. -/
def FlightInv (s : AppState) : Prop :=
  s.inFlight.length ≤ 1 ∧ (s.isLoading = false → s.inFlight = [])

theorem flightInv_init : FlightInv initState :=
  ⟨by simp [initState], fun _ => rfl⟩

theorem flightInv_step {s : AppState} (h : FlightInv s) (e : Ev)
    (hguard : isUploadEv e = true → s.inFlight = []) : FlightInv (step s e) := by
  cases e with
  | upload isImage mt readResult =>
      have hempty : s.inFlight = [] := hguard rfl
      cases isImage with
      | false => exact h
      | true =>
          cases readResult with
          | none => exact ⟨h.1, fun _ => hempty⟩
          | some u => exact ⟨h.1, fun _ => hempty⟩
  | attach isImage mt =>
      by_cases hg : (s.historyStack.length == 0 || s.isLoading) = true
      · have hs : step s (.attach isImage mt) = s := by simp [step, hg]
        rw [hs]; exact h
      · have hs : step s (.attach isImage mt) = handleContextImageSelect s isImage mt := by
          simp [step, hg]
        rw [hs]
        cases isImage with
        | false => exact h
        | true => exact h
  | discard => exact h
  | putPrompt p => exact h
  | undo =>
      by_cases hg : s.historyIndex > 0
      · have hs : step s .undo = { s with historyIndex := s.historyIndex - 1 } := by
          simp [step, handleUndo, hg]
        rw [hs]; exact h
      · have hs : step s .undo = s := by simp [step, handleUndo, hg]
        rw [hs]; exact h
  | redo =>
      by_cases hg : s.historyIndex < (s.historyStack.length : Int) - 1
      · have hs : step s .redo = { s with historyIndex := s.historyIndex + 1 } := by
          simp [step, handleRedo, hg]
        rw [hs]; exact h
      · have hs : step s .redo = s := by simp [step, handleRedo, hg]
        rw [hs]; exact h
  | submit =>
      by_cases h1 : ((currentImage s).isNone || isBlank s.prompt) = true
      · have hs : step s .submit =
            { s with error := some "Cannot edit without a base image and a prompt." } := by
          simp [step, handleEditStart, h1]
        rw [hs]; exact h
      · by_cases h2 : s.isLoading = true
        · have hs : step s .submit = s := by simp [step, handleEditStart, h1, h2]
          rw [hs]; exact h
        · have hempty : s.inFlight = [] := h.2 (by simpa using h2)
          have hs : step s .submit =
              { s with
                isLoading := true
                error := none
                chatHistory := s.chatHistory ++
                  [(⟨s.nextId, .user, some s.prompt, none, none,
                      s.contextImage.map PendingCtx.res⟩ : ChatMessage)]
                nextId := s.nextId + 1
                inFlight := s.inFlight ++
                  [(⟨s.nextId, s.historyStack, s.historyIndex, s.contextImage⟩ :
                      InFlightInfo)] } := by
            simp [step, handleEditStart, h1, h2]
          rw [hs]
          constructor
          · show (s.inFlight ++ [(⟨s.nextId, s.historyStack, s.historyIndex,
                s.contextImage⟩ : InFlightInfo)]).length ≤ 1
            rw [hempty]
            simp
          · intro hl
            exact absurd hl (by simp)
  | settle i r =>
      cases hq : s.inFlight[i]? with
      | none =>
          have hs : step s (.settle i r) = s := by simp [step, hq]
          rw [hs]; exact h
      | some info =>
          have hi : i < s.inFlight.length := (List.getElem?_eq_some.mp hq).1
          have herase : s.inFlight.eraseIdx i = [] := by
            have hlen : (s.inFlight.eraseIdx i).length = s.inFlight.length - 1 := by
              rw [List.length_eraseIdx]
              simp [hi]
            have h1 := h.1
            exact List.length_eq_zero.mp (by omega)
          have hs : step s (.settle i r) =
              handleEditSettle { s with inFlight := s.inFlight.eraseIdx i } info r := by
            simp [step, hq]
          rw [hs]
          cases r with
          | ok res => exact ⟨by rw [show (handleEditSettle { s with
              inFlight := s.inFlight.eraseIdx i } info (.ok res)).inFlight
                = s.inFlight.eraseIdx i from rfl, herase]; simp,
              fun _ => by rw [show (handleEditSettle { s with
                inFlight := s.inFlight.eraseIdx i } info (.ok res)).inFlight
                  = s.inFlight.eraseIdx i from rfl]; exact herase⟩
          | error msg => exact ⟨by rw [show (handleEditSettle { s with
              inFlight := s.inFlight.eraseIdx i } info (.error msg)).inFlight
                = s.inFlight.eraseIdx i from rfl, herase]; simp,
              fun _ => by rw [show (handleEditSettle { s with
                inFlight := s.inFlight.eraseIdx i } info (.error msg)).inFlight
                  = s.inFlight.eraseIdx i from rfl]; exact herase⟩

/-- Intermediate states of the double-flight scenario: submit from a prompted
session, then complete a fresh base-image upload while the call is
outstanding, then type a new prompt. -/
def c6afterSubmit : AppState := step demoPrompted .submit

def c6afterUpload : AppState := step c6afterSubmit (.upload true "image/png" (some "baseB"))

def c6rePrompted : AppState := step c6afterUpload (.putPrompt "again")

/-- C6 is refuted as stated: completing a new base-image upload while a call
is outstanding resets the loading flag, after which a state with a submission
still in flight accepts a second submit — it appends a new user entry and
issues a second external call, so two calls are outstanding at once. -/
theorem claim6_counterexample :
    c6rePrompted.inFlight ≠ []
    ∧ c6rePrompted.isLoading = false
    ∧ (step c6rePrompted .submit).inFlight.length = 2
    ∧ (step c6rePrompted .submit).chatHistory.length = c6rePrompted.chatHistory.length + 1 := by
  refine ⟨by decide, by decide, by decide, by decide⟩

/-- C6 (amended): while the loading flag is set — the code's in-flight state —
a further submit has no effect (no user entry, no external call); and in every
trace in which no upload completes during an outstanding call, at most one
external call is ever outstanding. -/
theorem claim6 :
    (∀ s : AppState, s.isLoading = true →
        (step s .submit).chatHistory = s.chatHistory
        ∧ (step s .submit).inFlight = s.inFlight)
    ∧ (∀ s : AppState, ReachableSF s → s.inFlight.length ≤ 1) := by
  constructor
  · intro s hl
    by_cases h1 : ((currentImage s).isNone || isBlank s.prompt) = true
    · have hs : step s .submit =
          { s with error := some "Cannot edit without a base image and a prompt." } := by
        simp [step, handleEditStart, h1]
      rw [hs]
      exact ⟨rfl, rfl⟩
    · have hs : step s .submit = s := by simp [step, handleEditStart, h1, hl]
      rw [hs]
      exact ⟨rfl, rfl⟩
  · intro s hr
    have hinv : FlightInv s := by
      induction hr with
      | init => exact flightInv_init
      | next e hr hguard ih => exact flightInv_step ih e hguard
    exact hinv.1

/-- Witness for C6 (amended) at a loading state and a single-flight trace. -/
theorem claim6_witness :
    ((step { initState with isLoading := true } .submit).chatHistory
        = ({ initState with isLoading := true } : AppState).chatHistory
      ∧ (step { initState with isLoading := true } .submit).inFlight
        = ({ initState with isLoading := true } : AppState).inFlight)
    ∧ demoBase.inFlight.length ≤ 1 :=
  ⟨claim6.1 { initState with isLoading := true } rfl,
   claim6.2 demoBase (ReachableSF.next _ ReachableSF.init (fun _ => rfl))⟩

/-- States of the error-persistence scenario: a rejected upload surfaces an
error, then a context image is attached successfully. -/
def demoBadUpload : AppState := step demoBase (.upload false "text/plain" none)

def demoAttachAfterError : AppState := step demoBadUpload (.attach true "image/png")

/-- C9 is refuted as stated: after an error is surfaced, a successful
context-image attach (a successful action) leaves the error displayed instead
of clearing it. -/
theorem claim9_counterexample :
    demoBadUpload.error = some "Please upload a valid image file."
    ∧ demoAttachAfterError.contextImage.isSome = true
    ∧ demoAttachAfterError.error = some "Please upload a valid image file." := by
  refine ⟨by decide, by decide, by decide⟩

/-- C9 (amended): the single error slot holds at most one error and a newly
surfaced error overwrites the previous one (latest wins); the error is
cleared when a valid base-image upload completes or when a submission passing
the preconditions starts, but a successful context-image attach, undo, redo,
prompt edit or discard leaves any displayed error in place. -/
theorem claim9 :
    (∀ s : AppState, ∀ mt u : String, (step s (.upload true mt (some u))).error = none)
    ∧ (∀ s : AppState, (currentImage s).isNone = false → isBlank s.prompt = false →
        s.isLoading = false → (step s .submit).error = none)
    ∧ (∀ s : AppState, ∀ mt : String, ∀ rd : Option String,
        (step s (.upload false mt rd)).error = some "Please upload a valid image file.")
    ∧ (∀ s : AppState, ∀ mt : String, (step s (.attach true mt)).error = s.error)
    ∧ (∀ s : AppState, (step s .undo).error = s.error ∧ (step s .redo).error = s.error
        ∧ (step s .discard).error = s.error
        ∧ ∀ p : String, (step s (.putPrompt p)).error = s.error) := by
  refine ⟨fun s mt u => rfl, ?_, fun s mt rd => rfl, ?_, ?_⟩
  · intro s hcur hp hl
    have h1 : ¬(((currentImage s).isNone || isBlank s.prompt) = true) := by
      simp [hcur, hp]
    have h2 : ¬(s.isLoading = true) := by simp [hl]
    have hs : step s .submit =
        { s with
          isLoading := true
          error := none
          chatHistory := s.chatHistory ++
            [(⟨s.nextId, .user, some s.prompt, none, none,
                s.contextImage.map PendingCtx.res⟩ : ChatMessage)]
          nextId := s.nextId + 1
          inFlight := s.inFlight ++
            [(⟨s.nextId, s.historyStack, s.historyIndex, s.contextImage⟩ :
                InFlightInfo)] } := by
      simp [step, handleEditStart, h1, h2]
    rw [hs]
  · intro s mt
    by_cases hg : (s.historyStack.length == 0 || s.isLoading) = true
    · have hs : step s (.attach true mt) = s := by simp [step, hg]
      rw [hs]
    · have hs : step s (.attach true mt) = handleContextImageSelect s true mt := by
        simp [step, hg]
      rw [hs]
      rfl
  · intro s
    refine ⟨?_, ?_, rfl, fun p => rfl⟩
    · by_cases hg : s.historyIndex > 0
      · have hs : step s .undo = { s with historyIndex := s.historyIndex - 1 } := by
          simp [step, handleUndo, hg]
        rw [hs]
      · have hs : step s .undo = s := by simp [step, handleUndo, hg]
        rw [hs]
    · by_cases hg : s.historyIndex < (s.historyStack.length : Int) - 1
      · have hs : step s .redo = { s with historyIndex := s.historyIndex + 1 } := by
          simp [step, handleRedo, hg]
        rw [hs]
      · have hs : step s .redo = s := by simp [step, handleRedo, hg]
        rw [hs]

/-- Witness for C9 (amended): a submission passing the preconditions clears
the error slot. -/
theorem claim9_witness : (step demoPrompted .submit).error = none :=
  claim9.2.1 demoPrompted (by decide) (by decide) rfl

theorem count_concat_self (l : List Nat) (a : Nat) : (l ++ [a]).count a = l.count a + 1 := by
  simp [List.count_append]

theorem count_concat_ne (l : List Nat) (a r : Nat) (h : ¬(a = r)) :
    (l ++ [a]).count r = l.count r := by
  simp [List.count_append, List.count_singleton', h]

/-- States reachable by the user-action vocabulary of the resource claim
(attach, explicit discard, submit, settle, prompt edits, undo/redo, plus
setup uploads at quiescent points), restricted to the orderly usages: no
attach while a context is already pending, and no discard while a submission
is in flight. -/
inductive ReachableRes : AppState → Prop where
  | init : ReachableRes initState
  | upload : ∀ {s : AppState} (isImage : Bool) (mt : String) (rd : Option String),
      ReachableRes s → s.contextImage = none → s.inFlight = [] →
      ReachableRes (step s (.upload isImage mt rd))
  | attach : ∀ {s : AppState} (isImage : Bool) (mt : String),
      ReachableRes s → s.contextImage = none → ReachableRes (step s (.attach isImage mt))
  | discard : ∀ {s : AppState}, ReachableRes s → s.isLoading = false →
      ReachableRes (step s .discard)
  | putPrompt : ∀ {s : AppState} (p : String), ReachableRes s →
      ReachableRes (step s (.putPrompt p))
  | undo : ∀ {s : AppState}, ReachableRes s → ReachableRes (step s .undo)
  | redo : ∀ {s : AppState}, ReachableRes s → ReachableRes (step s .redo)
  | submit : ∀ {s : AppState}, ReachableRes s → ReachableRes (step s .submit)
  | settle : ∀ {s : AppState} (i : Nat) (r : Except String EditResult),
      ReachableRes s → ReachableRes (step s (.settle i r))

/-- Resource-lifecycle invariant: releases only hit allocated resources, no
resource is released twice, the pending context (and any in-flight capture of
it) is allocated and unreleased, and every allocated-but-unreleased resource
is still live as the pending context. -/
def CtxInv (s : AppState) : Prop :=
  (∀ r ∈ s.released, r ∈ s.allocated)
  ∧ (∀ r ∈ s.allocated, r < s.nextId)
  ∧ (∀ r : Nat, s.released.count r ≤ 1)
  ∧ (∀ c : PendingCtx, s.contextImage = some c →
      c.res ∈ s.allocated ∧ s.released.count c.res = 0)
  ∧ (∀ info ∈ s.inFlight, info.capturedContext = s.contextImage)
  ∧ (s.isLoading = false → s.inFlight = [])
  ∧ (s.inFlight.length ≤ 1)
  ∧ (∀ r ∈ s.allocated, s.released.count r = 0 →
      ∃ c : PendingCtx, s.contextImage = some c ∧ c.res = r)

theorem ctxInv_holds {s0 : AppState} (h : ReachableRes s0) : CtxInv s0 := by
  induction h with
  | init =>
      refine ⟨fun r hr => absurd hr (List.not_mem_nil r),
        fun r hr => absurd hr (List.not_mem_nil r),
        fun r => ?_,
        fun c hc => Option.noConfusion hc,
        fun info hinfo => absurd hinfo (List.not_mem_nil info),
        fun _ => rfl,
        ?_,
        fun r hr => absurd hr (List.not_mem_nil r)⟩
      · show ([] : List Nat).count r ≤ 1
        simp
      · show ([] : List InFlightInfo).length ≤ 1
        simp
  | upload b mt rd hr hctx hfl ih =>
      rename_i s
      obtain ⟨i1, i2, i3, i4, i5, i6, i7, i8⟩ := ih
      cases b with
      | false => exact ⟨i1, i2, i3, i4, i5, i6, i7, i8⟩
      | true =>
          cases rd with
          | none => exact ⟨i1, i2, i3, i4, i5, fun _ => hfl, i7, i8⟩
          | some u =>
              refine ⟨i1, fun r hrr => Nat.lt_trans (i2 r hrr) (Nat.lt_succ_self _), i3,
                ?_, ?_, fun _ => hfl, i7, ?_⟩
              · intro c hc
                exact Option.noConfusion (show (none : Option PendingCtx) = some c from hc)
              · intro info hinfo
                have hmem : info ∈ s.inFlight := hinfo
                rw [hfl] at hmem
                exact absurd hmem (List.not_mem_nil info)
              · intro r hrr hcount
                obtain ⟨c, hc, _⟩ := i8 r hrr hcount
                rw [hctx] at hc
                exact Option.noConfusion hc
  | attach b mt hr hctx ih =>
      rename_i s
      obtain ⟨i1, i2, i3, i4, i5, i6, i7, i8⟩ := ih
      by_cases hg : (s.historyStack.length == 0 || s.isLoading) = true
      · have hs : step s (.attach b mt) = s := by simp [step, hg]
        rw [hs]
        exact ⟨i1, i2, i3, i4, i5, i6, i7, i8⟩
      · have hg' := hg
        simp only [Bool.or_eq_true, not_or, Bool.not_eq_true, beq_iff_eq] at hg'
        have hload : s.isLoading = false := hg'.2
        have hflempty : s.inFlight = [] := i6 hload
        have hs : step s (.attach b mt) = handleContextImageSelect s b mt := by
          simp [step, hg]
        rw [hs]
        cases b with
        | false => exact ⟨i1, i2, i3, i4, i5, i6, i7, i8⟩
        | true =>
            have hnotrel : s.nextId ∉ s.released := fun hmem => by
              have := i2 _ (i1 _ hmem)
              omega
            have hcount0 : s.released.count s.nextId = 0 := List.count_eq_zero.mpr hnotrel
            refine ⟨?_, ?_, i3, ?_, ?_, i6, i7, ?_⟩
            · intro r hrr
              exact List.mem_append.mpr (Or.inl (i1 r hrr))
            · intro r hrr
              rcases List.mem_append.mp hrr with hold | hnew
              · exact Nat.lt_trans (i2 r hold) (Nat.lt_succ_self _)
              · have hr' : r = s.nextId := by simpa using hnew
                rw [hr']
                exact Nat.lt_succ_self _
            · intro c hc
              have hceq : (⟨s.nextId, mt⟩ : PendingCtx) = c :=
                Option.some.inj (show some (⟨s.nextId, mt⟩ : PendingCtx) = some c from hc)
              rw [← hceq]
              exact ⟨List.mem_append.mpr (Or.inr (by simp)), hcount0⟩
            · intro info hinfo
              have hmem : info ∈ s.inFlight := hinfo
              rw [hflempty] at hmem
              exact absurd hmem (List.not_mem_nil info)
            · intro r hrr hcount
              rcases List.mem_append.mp hrr with hold | hnew
              · obtain ⟨c, hc, _⟩ := i8 r hold hcount
                rw [hctx] at hc
                exact Option.noConfusion hc
              · have hr' : r = s.nextId := by simpa using hnew
                exact ⟨⟨s.nextId, mt⟩, rfl, hr'.symm⟩
  | discard hr hload ih =>
      rename_i s
      obtain ⟨i1, i2, i3, i4, i5, i6, i7, i8⟩ := ih
      have hflempty : s.inFlight = [] := i6 hload
      cases hctx : s.contextImage with
      | none =>
          have hs : step s .discard = { s with contextImage := none } := by
            simp [step, discardContext, hctx]
          rw [hs]
          refine ⟨i1, i2, i3, ?_, ?_, i6, i7, ?_⟩
          · intro c hc
            exact Option.noConfusion (show (none : Option PendingCtx) = some c from hc)
          · intro info hinfo
            have hmem : info ∈ s.inFlight := hinfo
            rw [hflempty] at hmem
            exact absurd hmem (List.not_mem_nil info)
          · intro r hrr hcount
            obtain ⟨c, hc, _⟩ := i8 r hrr hcount
            rw [hctx] at hc
            exact Option.noConfusion hc
      | some c =>
          have hs : step s .discard =
              { s with contextImage := none, released := s.released ++ [c.res] } := by
            simp [step, discardContext, hctx]
          obtain ⟨hmem, hcnt0⟩ := i4 c hctx
          rw [hs]
          refine ⟨?_, i2, ?_, ?_, ?_, i6, i7, ?_⟩
          · intro r hrr
            rcases List.mem_append.mp hrr with hold | hnew
            · exact i1 r hold
            · have hr' : r = c.res := by simpa using hnew
              rw [hr']
              exact hmem
          · intro r
            by_cases hcr : c.res = r
            · rw [← hcr, count_concat_self, hcnt0]
            · rw [count_concat_ne _ _ _ hcr]
              exact i3 r
          · intro c' hc'
            exact Option.noConfusion (show (none : Option PendingCtx) = some c' from hc')
          · intro info hinfo
            have hmemf : info ∈ s.inFlight := hinfo
            rw [hflempty] at hmemf
            exact absurd hmemf (List.not_mem_nil info)
          · intro r hrr hcount
            by_cases hcr : c.res = r
            · rw [← hcr, count_concat_self] at hcount
              exact absurd hcount (Nat.succ_ne_zero _)
            · rw [count_concat_ne _ _ _ hcr] at hcount
              obtain ⟨c', hc', hres⟩ := i8 r hrr hcount
              rw [hctx] at hc'
              have hcc' : c = c' := Option.some.inj hc'
              exact absurd (by rw [hcc']; exact hres) hcr
  | putPrompt p hr ih =>
      exact ih
  | undo hr ih =>
      rename_i s
      by_cases hg : s.historyIndex > 0
      · have hs : step s .undo = { s with historyIndex := s.historyIndex - 1 } := by
          simp [step, handleUndo, hg]
        rw [hs]
        exact ih
      · have hs : step s .undo = s := by simp [step, handleUndo, hg]
        rw [hs]
        exact ih
  | redo hr ih =>
      rename_i s
      by_cases hg : s.historyIndex < (s.historyStack.length : Int) - 1
      · have hs : step s .redo = { s with historyIndex := s.historyIndex + 1 } := by
          simp [step, handleRedo, hg]
        rw [hs]
        exact ih
      · have hs : step s .redo = s := by simp [step, handleRedo, hg]
        rw [hs]
        exact ih
  | submit hr ih =>
      rename_i s
      obtain ⟨i1, i2, i3, i4, i5, i6, i7, i8⟩ := ih
      by_cases h1 : ((currentImage s).isNone || isBlank s.prompt) = true
      · have hs : step s .submit =
            { s with error := some "Cannot edit without a base image and a prompt." } := by
          simp [step, handleEditStart, h1]
        rw [hs]
        exact ⟨i1, i2, i3, i4, i5, i6, i7, i8⟩
      · by_cases h2 : s.isLoading = true
        · have hs : step s .submit = s := by simp [step, handleEditStart, h1, h2]
          rw [hs]
          exact ⟨i1, i2, i3, i4, i5, i6, i7, i8⟩
        · have hload : s.isLoading = false := by simpa using h2
          have hflempty : s.inFlight = [] := i6 hload
          have hs : step s .submit =
              { s with
                isLoading := true
                error := none
                chatHistory := s.chatHistory ++
                  [(⟨s.nextId, .user, some s.prompt, none, none,
                      s.contextImage.map PendingCtx.res⟩ : ChatMessage)]
                nextId := s.nextId + 1
                inFlight := s.inFlight ++
                  [(⟨s.nextId, s.historyStack, s.historyIndex, s.contextImage⟩ :
                      InFlightInfo)] } := by
            simp [step, handleEditStart, h1, h2]
          rw [hs]
          refine ⟨i1, fun r hrr => Nat.lt_trans (i2 r hrr) (Nat.lt_succ_self _), i3, i4,
            ?_, ?_, ?_, i8⟩
          · intro info hinfo
            have hmem : info ∈ s.inFlight ++
                [(⟨s.nextId, s.historyStack, s.historyIndex, s.contextImage⟩ :
                    InFlightInfo)] := hinfo
            rcases List.mem_append.mp hmem with hold | hnew
            · rw [hflempty] at hold
              exact absurd hold (List.not_mem_nil info)
            · have hieq : info = ⟨s.nextId, s.historyStack, s.historyIndex, s.contextImage⟩ := by
                simpa using hnew
              rw [hieq]
          · intro hl
            exact Bool.noConfusion (show true = false from hl)
          · show (s.inFlight ++
                [(⟨s.nextId, s.historyStack, s.historyIndex, s.contextImage⟩ :
                    InFlightInfo)]).length ≤ 1
            rw [hflempty]
            simp
  | settle i r hr ih =>
      rename_i s
      obtain ⟨i1, i2, i3, i4, i5, i6, i7, i8⟩ := ih
      cases hq : s.inFlight[i]? with
      | none =>
          have hs : step s (.settle i r) = s := by simp [step, hq]
          rw [hs]
          exact ⟨i1, i2, i3, i4, i5, i6, i7, i8⟩
      | some info =>
          have hi : i < s.inFlight.length := (List.getElem?_eq_some.mp hq).1
          have herase : s.inFlight.eraseIdx i = [] := by
            have hlen : (s.inFlight.eraseIdx i).length = s.inFlight.length - 1 := by
              rw [List.length_eraseIdx]
              simp [hi]
            exact List.length_eq_zero.mp (by omega)
          have hcap : info.capturedContext = s.contextImage := i5 info (List.getElem?_mem hq)
          have hs0 : step s (.settle i r) =
              handleEditSettle { s with inFlight := s.inFlight.eraseIdx i } info r := by
            simp [step, hq]
          rw [hs0]
          cases hcc : info.capturedContext with
          | none =>
              have hctx : s.contextImage = none := by rw [← hcap, hcc]
              have hnone8 : ∀ r' ∈ s.allocated, s.released.count r' ≠ 0 := by
                intro r' hrr hcount
                obtain ⟨c, hc, _⟩ := i8 r' hrr hcount
                rw [hctx] at hc
                exact Option.noConfusion hc
              have hrelEq : (handleEditSettle { s with inFlight := s.inFlight.eraseIdx i }
                  info r).released = s.released := by
                cases r with
                | ok res => simp [handleEditSettle, hcc]
                | error msg => simp [handleEditSettle, hcc]
              cases r with
              | ok res =>
                  refine ⟨?_, fun r' hrr => Nat.lt_trans (i2 r' hrr) (Nat.lt_succ_self _),
                    ?_, ?_, ?_, fun _ => herase, ?_, ?_⟩
                  · intro r' hrr
                    rw [hrelEq] at hrr
                    exact i1 r' hrr
                  · intro r'
                    rw [hrelEq]
                    exact i3 r'
                  · intro c hc
                    exact Option.noConfusion (show (none : Option PendingCtx) = some c from hc)
                  · intro info' hinfo'
                    have hmem : info' ∈ s.inFlight.eraseIdx i := hinfo'
                    rw [herase] at hmem
                    exact absurd hmem (List.not_mem_nil info')
                  · show (s.inFlight.eraseIdx i).length ≤ 1
                    rw [herase]
                    simp
                  · intro r' hrr hcount
                    rw [hrelEq] at hcount
                    exact absurd hcount (hnone8 r' hrr)
              | error msg =>
                  refine ⟨?_, i2, ?_, ?_, ?_, fun _ => herase, ?_, ?_⟩
                  · intro r' hrr
                    rw [hrelEq] at hrr
                    exact i1 r' hrr
                  · intro r'
                    rw [hrelEq]
                    exact i3 r'
                  · intro c hc
                    exact Option.noConfusion (show (none : Option PendingCtx) = some c from hc)
                  · intro info' hinfo'
                    have hmem : info' ∈ s.inFlight.eraseIdx i := hinfo'
                    rw [herase] at hmem
                    exact absurd hmem (List.not_mem_nil info')
                  · show (s.inFlight.eraseIdx i).length ≤ 1
                    rw [herase]
                    simp
                  · intro r' hrr hcount
                    rw [hrelEq] at hcount
                    exact absurd hcount (hnone8 r' hrr)
          | some c =>
              have hctx : s.contextImage = some c := by rw [← hcap, hcc]
              obtain ⟨hmem, hcnt0⟩ := i4 c hctx
              have hrelEq : (handleEditSettle { s with inFlight := s.inFlight.eraseIdx i }
                  info r).released = s.released ++ [c.res] := by
                cases r with
                | ok res => simp [handleEditSettle, hcc]
                | error msg => simp [handleEditSettle, hcc]
              have hrel1 : ∀ r' ∈ s.released ++ [c.res], r' ∈ s.allocated := by
                intro r' hrr
                rcases List.mem_append.mp hrr with hold | hnew
                · exact i1 r' hold
                · have hr' : r' = c.res := by simpa using hnew
                  rw [hr']
                  exact hmem
              have hrel3 : ∀ r', (s.released ++ [c.res]).count r' ≤ 1 := by
                intro r'
                by_cases hcr : c.res = r'
                · rw [← hcr, count_concat_self, hcnt0]
                · rw [count_concat_ne _ _ _ hcr]
                  exact i3 r'
              have hrel8 : ∀ r' ∈ s.allocated, (s.released ++ [c.res]).count r' ≠ 0 := by
                intro r' hrr hcount
                by_cases hcr : c.res = r'
                · rw [← hcr, count_concat_self] at hcount
                  exact absurd hcount (Nat.succ_ne_zero _)
                · rw [count_concat_ne _ _ _ hcr] at hcount
                  obtain ⟨c', hc', hres⟩ := i8 r' hrr hcount
                  rw [hctx] at hc'
                  have hcc' : c = c' := Option.some.inj hc'
                  exact absurd (by rw [hcc']; exact hres) hcr
              cases r with
              | ok res =>
                  refine ⟨?_, fun r' hrr => Nat.lt_trans (i2 r' hrr) (Nat.lt_succ_self _),
                    ?_, ?_, ?_, fun _ => herase, ?_, ?_⟩
                  · intro r' hrr
                    rw [hrelEq] at hrr
                    exact hrel1 r' hrr
                  · intro r'
                    rw [hrelEq]
                    exact hrel3 r'
                  · intro c' hc'
                    exact Option.noConfusion (show (none : Option PendingCtx) = some c' from hc')
                  · intro info' hinfo'
                    have hmemf : info' ∈ s.inFlight.eraseIdx i := hinfo'
                    rw [herase] at hmemf
                    exact absurd hmemf (List.not_mem_nil info')
                  · show (s.inFlight.eraseIdx i).length ≤ 1
                    rw [herase]
                    simp
                  · intro r' hrr hcount
                    rw [hrelEq] at hcount
                    exact absurd hcount (hrel8 r' hrr)
              | error msg =>
                  refine ⟨?_, i2, ?_, ?_, ?_, fun _ => herase, ?_, ?_⟩
                  · intro r' hrr
                    rw [hrelEq] at hrr
                    exact hrel1 r' hrr
                  · intro r'
                    rw [hrelEq]
                    exact hrel3 r'
                  · intro c' hc'
                    exact Option.noConfusion (show (none : Option PendingCtx) = some c' from hc')
                  · intro info' hinfo'
                    have hmemf : info' ∈ s.inFlight.eraseIdx i := hinfo'
                    rw [herase] at hmemf
                    exact absurd hmemf (List.not_mem_nil info')
                  · show (s.inFlight.eraseIdx i).length ≤ 1
                    rw [herase]
                    simp
                  · intro r' hrr hcount
                    rw [hrelEq] at hcount
                    exact absurd hcount (hrel8 r' hrr)

/-- States of the resource scenarios: attach a context to a fresh base, and
either discard it cleanly, or submit and discard while the call is in flight. -/
def c4ctx : AppState := step demoBase (.attach true "image/png")

def c4discarded : AppState := step c4ctx .discard

def c4prompted : AppState := step c4ctx (.putPrompt "add the logo")

def c4flight : AppState := step c4prompted .submit

def c4midDiscard : AppState := step c4flight .discard

def c4double : AppState := step c4midDiscard (.settle 0 (.ok ⟨"editedB64", "image/png"⟩))

/-- C4 is refuted as stated: attaching a context, submitting, discarding the
context while the call is in flight, and letting the call succeed revokes the
single allocated preview resource twice (the discard button stays active
during the flight, and the settle path revokes the closure-captured URL
again). -/
theorem claim4_counterexample :
    c4double.allocated = [1]
    ∧ c4double.released = [1, 1]
    ∧ c4double.released.count 1 = 2 := by
  refine ⟨by decide, by decide, by decide⟩

/-- C4 (amended): provided no context is attached while one is already
pending and no discard happens while a submission is in flight, no preview
resource is ever released twice, and at every quiescent point (no pending
context, no outstanding call) every allocated preview resource has been
released exactly once. -/
theorem claim4 (s : AppState) (h : ReachableRes s) :
    (∀ r : Nat, s.released.count r ≤ 1)
    ∧ (s.contextImage = none → s.inFlight = [] →
        ∀ r ∈ s.allocated, s.released.count r = 1) := by
  obtain ⟨i1, i2, i3, i4, i5, i6, i7, i8⟩ := ctxInv_holds h
  refine ⟨i3, ?_⟩
  intro hctx _ r hr
  have hle := i3 r
  by_cases hz : s.released.count r = 0
  · obtain ⟨c, hc, _⟩ := i8 r hr hz
    rw [hctx] at hc
    exact Option.noConfusion hc
  · omega

/-- Witness for C4 (amended): attach then clean discard releases the one
allocated resource exactly once. -/
theorem claim4_witness :
    c4discarded.released.count 1 ≤ 1 ∧ c4discarded.released.count 1 = 1 :=
  ⟨(claim4 c4discarded
      (ReachableRes.discard (ReachableRes.attach true "image/png"
        (ReachableRes.upload true "image/png" (some "baseA") ReachableRes.init rfl rfl)
        rfl) rfl)).1 1,
   (claim4 c4discarded
      (ReachableRes.discard (ReachableRes.attach true "image/png"
        (ReachableRes.upload true "image/png" (some "baseA") ReachableRes.init rfl rfl)
        rfl) rfl)).2 rfl rfl 1 (by decide)⟩

/-- C8: a submit with no base image (empty history) or a blank prompt is
rejected synchronously: the only state change is the inline error, so no
user entry is appended, no external call is issued, and the history, log and
pending context are untouched. -/
theorem claim8 (s : AppState) (h : s.historyStack = [] ∨ isBlank s.prompt = true) :
    step s .submit = { s with error := some "Cannot edit without a base image and a prompt." }
    ∧ (step s .submit).chatHistory = s.chatHistory
    ∧ (step s .submit).inFlight = s.inFlight
    ∧ (step s .submit).historyStack = s.historyStack
    ∧ (step s .submit).contextImage = s.contextImage := by
  have hcond : ((currentImage s).isNone || isBlank s.prompt) = true := by
    rcases h with h | h
    · simp [currentImage, h, getAt_nil]
    · simp [h]
  have hstep : step s .submit =
      { s with error := some "Cannot edit without a base image and a prompt." } := by
    simp [step, handleEditStart, hcond]
  refine ⟨hstep, ?_, ?_, ?_, ?_⟩ <;> rw [hstep]

/-- Witness for C8 at the fresh session (empty history, blank prompt). -/
theorem claim8_witness :
    step initState .submit =
      { initState with error := some "Cannot edit without a base image and a prompt." }
    ∧ (step initState .submit).chatHistory = initState.chatHistory
    ∧ (step initState .submit).inFlight = initState.inFlight
    ∧ (step initState .submit).historyStack = initState.historyStack
    ∧ (step initState .submit).contextImage = initState.contextImage :=
  claim8 initState (Or.inl rfl)

end ThumbEdit
